import Mathlib

/-!
Verification of the cookie-jar core of `src/core/http/src/cookies.rs`.

The Rust file defines a thin `CookieJar` wrapper holding an inner
`cookie::CookieJar` plus a shared encryption `Key`.  The wrapper's own code
(attribute defaulting, path defaulting on removal, delegation, the `Debug`
impl) is translated here directly from the source.  The inner jar and the
authenticated-encryption codec live in the external `cookie` crate, which is
not part of this repository; those parts are modelled from the specification
(sections 3 and 4), with authenticated encryption represented symbolically:
a sealed value records the key and the cookie name it was sealed under, and
unsealing succeeds exactly when both match, which is the spec's idealised
contract for the codec.
-/

namespace Rocket

/-- The `SameSite` cookie attribute (external `cookie` crate enum). -/
inductive SameSite where
  | strict
  | lax
  | none_
deriving DecidableEq

/-- Modelled from the spec: the symmetric `Key`, either a real 256-bit key
(identified abstractly by a number) or the disabled stand-in that makes the
private codec a pass-through. -/
inductive Key where
  | real (id : Nat)
  | disabled
deriving DecidableEq

/-- Modelled from the spec: a cookie value, either plaintext bytes or an
authenticated-encryption envelope.  The envelope symbolically records the key
and the cookie name it is bound to; decryption succeeds only when both match,
which is the spec's contract for the private codec. -/
inductive Value where
  | plain (bytes : List Nat)
  | sealed (keyId : Nat) (boundName : String) (payload : Value)
deriving DecidableEq

/-- The `Cookie` record of the external `cookie` crate, per section 3 of the
spec: name, value, and the optional attributes the jar's decisions depend on. -/
structure Cookie where
  name : String
  value : Value
  path : Option String := none
  domain : Option String := none
  same_site : Option SameSite := none
  http_only : Option Bool := none
  secure : Option Bool := none
  expires : Option Int := none
  max_age : Option Int := none
deriving DecidableEq

/-- The identity used for diffing: the (name, path, domain) triple. -/
abbrev CookieId := String × Option String × Option String

/-- The (name, path, domain) identity of a cookie. -/
def Cookie.identity (c : Cookie) : CookieId := (c.name, c.path, c.domain)

/-- Modelled from the spec: a pending mutation in `delta` is either an upsert
or a removal tombstone. -/
inductive DeltaEntry where
  | upsert (c : Cookie)
  | removal (c : Cookie)
deriving DecidableEq

/-- The cookie carried by a delta entry. -/
def DeltaEntry.cookie : DeltaEntry → Cookie
  | .upsert c => c
  | .removal c => c

/-- Modelled from the spec: the inner `cookie::CookieJar` state (the crate is
not under `src/`): the `original` snapshot and the pending `delta` mutations,
each a map keyed by cookie identity. -/
structure InnerJar where
  original : List Cookie
  delta : List DeltaEntry
deriving DecidableEq

/-- Drop every delta entry whose cookie has the given identity. -/
def removeIdentity (i : CookieId) : List DeltaEntry → List DeltaEntry
  | [] => []
  | e :: rest =>
    if e.cookie.identity = i then removeIdentity i rest
    else e :: removeIdentity i rest

/-- Modelled from the spec: upserting into `delta` replaces any prior entry
for the same identity, never appends a second one. -/
def deltaUpsert (e : DeltaEntry) (d : List DeltaEntry) : List DeltaEntry :=
  e :: removeIdentity e.cookie.identity d

/-- First delta entry whose cookie has the given name. -/
def findDeltaByName (name : String) : List DeltaEntry → Option DeltaEntry
  | [] => none
  | e :: rest => if e.cookie.name = name then some e else findDeltaByName name rest

/-- First original cookie with the given name. -/
def findOriginalByName (name : String) : List Cookie → Option Cookie
  | [] => none
  | c :: rest => if c.name = name then some c else findOriginalByName name rest

/-- Modelled from the spec: `get` observes `delta` before falling back to
`original`; a removal tombstone reports absence, an upsert masks `original`. -/
def InnerJar.get (j : InnerJar) (name : String) : Option Cookie :=
  match findDeltaByName name j.delta with
  | some (.upsert c) => some c
  | some (.removal _) => none
  | none => findOriginalByName name j.original

/-- Modelled from the spec: `add` upserts the cookie into `delta`. -/
def InnerJar.add (j : InnerJar) (c : Cookie) : InnerJar :=
  { j with delta := deltaUpsert (.upsert c) j.delta }

/-- Modelled from the spec: the removal tombstone keeps the cookie's identity
and carries an empty value, a zero max-age, and an expiration far in the past
(one year before the current time). -/
def make_removal (now : Int) (c : Cookie) : Cookie :=
  { c with value := Value.plain [], max_age := some 0, expires := some (now - 31536000) }

/-- Modelled from the spec: `remove` upserts a removal tombstone into `delta`. -/
def InnerJar.remove (j : InnerJar) (now : Int) (c : Cookie) : InnerJar :=
  { j with delta := deltaUpsert (.removal (make_removal now c)) j.delta }

/-- Drop every original cookie with the given identity. -/
def removeOriginalIdentity (i : CookieId) : List Cookie → List Cookie
  | [] => []
  | c :: rest =>
    if c.identity = i then removeOriginalIdentity i rest
    else c :: removeOriginalIdentity i rest

/-- Modelled from the spec: inserting into the identity-keyed `original` map. -/
def originalUpsert (c : Cookie) (l : List Cookie) : List Cookie :=
  c :: removeOriginalIdentity c.identity l

/-- Modelled from the spec: `add_original` inserts the cookie as received,
directly into `original`. -/
def InnerJar.add_original (j : InnerJar) (c : Cookie) : InnerJar :=
  { j with original := originalUpsert c j.original }

/-- Modelled from the spec: `reset_delta` clears `delta` entirely. -/
def InnerJar.reset_delta (j : InnerJar) : InnerJar :=
  { j with delta := [] }

/-- The cookies of the upsert entries of a delta, in order. -/
def deltaUpserts : List DeltaEntry → List Cookie
  | [] => []
  | .upsert c :: rest => c :: deltaUpserts rest
  | .removal _ :: rest => deltaUpserts rest

/-- Whether some delta entry has the given identity. -/
def hasIdentity (i : CookieId) : List DeltaEntry → Bool
  | [] => false
  | e :: rest => if e.cookie.identity = i then true else hasIdentity i rest

/-- Original cookies whose identity has no delta entry at all. -/
def keepUnmasked (d : List DeltaEntry) : List Cookie → List Cookie
  | [] => []
  | c :: rest =>
    if hasIdentity c.identity d then keepUnmasked d rest
    else c :: keepUnmasked d rest

/-- Modelled from the spec: `iter` yields every upsert in `delta` plus every
`original` entry whose identity has no delta entry at all. -/
def InnerJar.iter (j : InnerJar) : List Cookie :=
  deltaUpserts j.delta ++ keepUnmasked j.delta j.original

/-- Delta entries whose cookie has the given identity. -/
def deltaEntriesFor (i : CookieId) : List DeltaEntry → List DeltaEntry
  | [] => []
  | e :: rest =>
    if e.cookie.identity = i then e :: deltaEntriesFor i rest
    else deltaEntriesFor i rest

/-- Modelled from the spec: the private codec's `encrypt` replaces the value
with an authenticated envelope bound to the cookie's name; the disabled
stand-in key is a pass-through. -/
def encrypt_cookie (k : Key) (c : Cookie) : Cookie :=
  match k with
  | .disabled => c
  | .real i => { c with value := Value.sealed i c.name c.value }

/-- Modelled from the spec: the private codec's `decrypt` authenticates and
unseals, returning the plaintext cookie on success and `none` on any failure
(tampered envelope, wrong key, or name mismatch); the disabled stand-in key is
a pass-through. -/
def decrypt_cookie (k : Key) (c : Cookie) : Option Cookie :=
  match k with
  | .disabled => some c
  | .real i =>
    match c.value with
    | Value.sealed j n p => if j = i ∧ n = c.name then some { c with value := p } else none
    | Value.plain _ => none

/-- Modelled from the spec: `PrivateJar::get` locates via `get` and then
decrypts. -/
def InnerJar.private_get (j : InnerJar) (k : Key) (name : String) : Option Cookie :=
  (j.get name).bind (decrypt_cookie k)

/-- Modelled from the spec: `PrivateJar::add` encrypts and then upserts. -/
def InnerJar.private_add (j : InnerJar) (k : Key) (c : Cookie) : InnerJar :=
  j.add (encrypt_cookie k c)

/-- Modelled from the spec: private removal has identical semantics to plain
removal; no decryption is performed. -/
def InnerJar.private_remove (j : InnerJar) (now : Int) (c : Cookie) : InnerJar :=
  j.remove now c

/-- Modelled from the spec: the private original-add inserts the received
(already encrypted) cookie without decrypting; decryption is deferred to
`get_private`. -/
def InnerJar.private_add_original (j : InnerJar) (c : Cookie) : InnerJar :=
  j.add_original c

/-- The `CookieJar` of `cookies.rs`: the inner jar plus the shared key. -/
structure CookieJar where
  jar : InnerJar
  key : Key
deriving DecidableEq

/-- `CookieJar::new`: empty inner jar with the given key. -/
def CookieJar.new (key : Key) : CookieJar :=
  { jar := { original := [], delta := [] }, key := key }

/-- `CookieJar::get`: delegates to the inner jar. -/
def CookieJar.get (self : CookieJar) (name : String) : Option Cookie :=
  self.jar.get name

/-- `CookieJar::get_private`: delegates to the private view of the inner jar. -/
def CookieJar.get_private (self : CookieJar) (name : String) : Option Cookie :=
  self.jar.private_get self.key name

/-- The first `if` block of `set_defaults` and of `remove`: default an unset
path to the root path. -/
def default_path (cookie : Cookie) : Cookie :=
  if cookie.path = none then { cookie with path := some "/" } else cookie

/-- The `same_site` block of `set_defaults`: default an unset SameSite to
Strict. -/
def default_same_site (cookie : Cookie) : Cookie :=
  if cookie.same_site = none then { cookie with same_site := some SameSite.strict }
  else cookie

/-- The `http_only` block of `set_private_defaults`: default to true when
unset. -/
def default_http_only (cookie : Cookie) : Cookie :=
  if cookie.http_only = none then { cookie with http_only := some true } else cookie

/-- The `expires` block of `set_private_defaults`: default to one week past
the current time when unset. -/
def default_expires (now : Int) (cookie : Cookie) : Cookie :=
  if cookie.expires = none then { cookie with expires := some (now + 604800) }
  else cookie

/-- `CookieJar::set_defaults`: path then SameSite, each only when unset. -/
def CookieJar.set_defaults (cookie : Cookie) : Cookie :=
  default_same_site (default_path cookie)

/-- `CookieJar::set_private_defaults`: path, SameSite, HttpOnly, then Expires,
each only when unset. -/
def CookieJar.set_private_defaults (now : Int) (cookie : Cookie) : Cookie :=
  default_expires now (default_http_only (default_same_site (default_path cookie)))

/-- `CookieJar::add`: apply plain defaults, then upsert into the inner jar. -/
def CookieJar.add (self : CookieJar) (cookie : Cookie) : CookieJar :=
  { self with jar := self.jar.add (CookieJar.set_defaults cookie) }

/-- `CookieJar::add_private`: apply private defaults, then add through the
private view (which encrypts). -/
def CookieJar.add_private (self : CookieJar) (now : Int) (cookie : Cookie) : CookieJar :=
  { self with jar := self.jar.private_add self.key (CookieJar.set_private_defaults now cookie) }

/-- `CookieJar::remove`: default an unset path to the root path, then remove
through the inner jar. -/
def CookieJar.remove (self : CookieJar) (now : Int) (cookie : Cookie) : CookieJar :=
  { self with jar := self.jar.remove now (default_path cookie) }

/-- `CookieJar::remove_private`: default an unset path to the root path, then
remove through the private view. -/
def CookieJar.remove_private (self : CookieJar) (now : Int) (cookie : Cookie) : CookieJar :=
  { self with jar := self.jar.private_remove now (default_path cookie) }

/-- `CookieJar::iter`: delegates to the inner jar. -/
def CookieJar.iter (self : CookieJar) : List Cookie :=
  self.jar.iter

/-- `CookieJar::reset_delta`: delegates to the inner jar. -/
def CookieJar.reset_delta (self : CookieJar) : CookieJar :=
  { self with jar := self.jar.reset_delta }

/-- `CookieJar::delta`: the cookies of every pending delta entry. -/
def CookieJar.delta (self : CookieJar) : List Cookie :=
  self.jar.delta.map DeltaEntry.cookie

/-- `CookieJar::add_original`: delegates to the inner jar, bypassing the
attribute defaulter. -/
def CookieJar.add_original (self : CookieJar) (cookie : Cookie) : CookieJar :=
  { self with jar := self.jar.add_original cookie }

/-- `CookieJar::add_original_private`: delegates to the private view's
original-add, bypassing the attribute defaulter. -/
def CookieJar.add_original_private (self : CookieJar) (cookie : Cookie) : CookieJar :=
  { self with jar := self.jar.private_add_original cookie }

/-- Render a byte list for the debug view. -/
def renderBytes : List Nat → String
  | [] => ""
  | [b] => toString b
  | b :: rest => toString b ++ "." ++ renderBytes rest

/-- Render a cookie value for the debug view. -/
def Value.render : Value → String
  | .plain bs => "plain(" ++ renderBytes bs ++ ")"
  | .sealed i n p => "sealed(" ++ toString i ++ "," ++ n ++ "," ++ Value.render p ++ ")"

/-- Render one cookie for the debug view. -/
def renderCookie (c : Cookie) : String :=
  c.name ++ "=" ++ c.value.render

/-- Render a cookie list for the debug view. -/
def renderCookieList : List Cookie → String
  | [] => ""
  | c :: rest => renderCookie c ++ ";" ++ renderCookieList rest

/-- Render a delta entry for the debug view. -/
def renderDeltaEntry : DeltaEntry → String
  | .upsert c => "upsert(" ++ renderCookie c ++ ")"
  | .removal c => "removal(" ++ renderCookie c ++ ")"

/-- Render a delta list for the debug view. -/
def renderDeltaList : List DeltaEntry → String
  | [] => ""
  | e :: rest => renderDeltaEntry e ++ ";" ++ renderDeltaList rest

/-- Modelled from the spec: the inner jar's derived Debug representation (the
crate's formatter), a function of the inner state alone. -/
def InnerJar.fmt (j : InnerJar) : String :=
  "CookieJar[" ++ renderCookieList j.original ++ "|" ++ renderDeltaList j.delta ++ "]"

/-- The `Debug` impl for `CookieJar`: delegates entirely to the inner jar. -/
def CookieJar.fmt (self : CookieJar) : String :=
  self.jar.fmt

/-- The jar states reachable through the public constructor and operations. -/
inductive Reachable : CookieJar → Prop where
  | new (k : Key) : Reachable (CookieJar.new k)
  | add (j : CookieJar) (c : Cookie) : Reachable j → Reachable (j.add c)
  | add_private (j : CookieJar) (now : Int) (c : Cookie) :
      Reachable j → Reachable (j.add_private now c)
  | remove (j : CookieJar) (now : Int) (c : Cookie) :
      Reachable j → Reachable (j.remove now c)
  | remove_private (j : CookieJar) (now : Int) (c : Cookie) :
      Reachable j → Reachable (j.remove_private now c)
  | add_original (j : CookieJar) (c : Cookie) : Reachable j → Reachable (j.add_original c)
  | add_original_private (j : CookieJar) (c : Cookie) :
      Reachable j → Reachable (j.add_original_private c)
  | reset_delta (j : CookieJar) : Reachable j → Reachable j.reset_delta

/-- Invariant I1: the delta holds at most one entry per cookie identity. -/
def DeltaDistinct (j : CookieJar) : Prop :=
  j.jar.delta.Pairwise (fun a b => a.cookie.identity ≠ b.cookie.identity)

/-- A plain test cookie with no attributes set. -/
def cFix : Cookie := { name := "session", value := Value.plain [9, 7] }

/-- A jar loaded with one original cookie at the root path. -/
def jFix : CookieJar :=
  (CookieJar.new (Key.real 5)).add_original
    { name := "session", value := Value.plain [9, 7], path := some "/" }

/-- A jar whose key is a real key. -/
def jKey : CookieJar := CookieJar.new (Key.real 5)

/-- A cookie named `b` whose value is a ciphertext sealed under the name `a`. -/
def cSwap : Cookie := { name := "b", value := Value.sealed 7 "a" (Value.plain [1]) }

/-- A jar holding the name-swapped ciphertext cookie as an original. -/
def jSwap : CookieJar := (CookieJar.new (Key.real 7)).add_original cSwap

/-- An inner jar state shared by the debug-output witnesses. -/
def innerFix : InnerJar := { original := [cSwap], delta := [] }

@[simp]
theorem default_path_name (c : Cookie) : (default_path c).name = c.name := by
  unfold default_path; split <;> rfl

@[simp]
theorem default_path_value (c : Cookie) : (default_path c).value = c.value := by
  unfold default_path; split <;> rfl

@[simp]
theorem default_same_site_name (c : Cookie) : (default_same_site c).name = c.name := by
  unfold default_same_site; split <;> rfl

@[simp]
theorem default_same_site_value (c : Cookie) : (default_same_site c).value = c.value := by
  unfold default_same_site; split <;> rfl

@[simp]
theorem default_http_only_name (c : Cookie) : (default_http_only c).name = c.name := by
  unfold default_http_only; split <;> rfl

@[simp]
theorem default_http_only_value (c : Cookie) : (default_http_only c).value = c.value := by
  unfold default_http_only; split <;> rfl

@[simp]
theorem default_expires_name (now : Int) (c : Cookie) :
    (default_expires now c).name = c.name := by
  unfold default_expires; split <;> rfl

@[simp]
theorem default_expires_value (now : Int) (c : Cookie) :
    (default_expires now c).value = c.value := by
  unfold default_expires; split <;> rfl

@[simp]
theorem set_defaults_name (c : Cookie) : (CookieJar.set_defaults c).name = c.name := by
  simp [CookieJar.set_defaults]

@[simp]
theorem set_defaults_value (c : Cookie) : (CookieJar.set_defaults c).value = c.value := by
  simp [CookieJar.set_defaults]

@[simp]
theorem set_private_defaults_name (now : Int) (c : Cookie) :
    (CookieJar.set_private_defaults now c).name = c.name := by
  simp [CookieJar.set_private_defaults]

@[simp]
theorem set_private_defaults_value (now : Int) (c : Cookie) :
    (CookieJar.set_private_defaults now c).value = c.value := by
  simp [CookieJar.set_private_defaults]

@[simp]
theorem make_removal_name (now : Int) (c : Cookie) : (make_removal now c).name = c.name := rfl

@[simp]
theorem make_removal_identity (now : Int) (c : Cookie) :
    (make_removal now c).identity = c.identity := rfl

theorem keepUnmasked_nil (l : List Cookie) : keepUnmasked [] l = l := by
  induction l with
  | nil => rfl
  | cons c rest ih => simp [keepUnmasked, hasIdentity, ih]

theorem deltaEntriesFor_removeIdentity (i : CookieId) (d : List DeltaEntry) :
    deltaEntriesFor i (removeIdentity i d) = [] := by
  induction d with
  | nil => rfl
  | cons e rest ih =>
    unfold removeIdentity
    split
    · exact ih
    · rename_i hne
      unfold deltaEntriesFor
      split
      · rename_i heq; exact absurd heq hne
      · exact ih

theorem removeIdentity_sublist (i : CookieId) (d : List DeltaEntry) :
    List.Sublist (removeIdentity i d) d := by
  induction d with
  | nil => simp [removeIdentity]
  | cons e rest ih =>
    unfold removeIdentity
    split
    · exact ih.cons e
    · exact ih.cons₂ e

theorem mem_removeIdentity (i : CookieId) (d : List DeltaEntry) (e : DeltaEntry)
    (he : e ∈ removeIdentity i d) : e.cookie.identity ≠ i := by
  induction d with
  | nil => simp [removeIdentity] at he
  | cons a rest ih =>
    unfold removeIdentity at he
    split at he
    · exact ih he
    · rename_i hne
      rcases List.mem_cons.mp he with rfl | hmem
      · exact hne
      · exact ih hmem

theorem pairwise_deltaUpsert (e : DeltaEntry) (d : List DeltaEntry)
    (hd : d.Pairwise (fun a b => a.cookie.identity ≠ b.cookie.identity)) :
    (deltaUpsert e d).Pairwise (fun a b => a.cookie.identity ≠ b.cookie.identity) := by
  refine List.Pairwise.cons ?_ (hd.sublist (removeIdentity_sublist _ _))
  intro b hb
  exact (mem_removeIdentity _ _ _ hb).symm

/-- Claim C1: after `add c`, `get` on the name of `c` returns `c` with the plain
defaults applied, regardless of what `original` (or the prior delta) holds: the
fresh delta upsert masks everything behind it. -/
theorem claim_C1_add_masks_get (j : CookieJar) (c : Cookie) :
    (j.add c).get c.name = some (CookieJar.set_defaults c) := by
  simp [CookieJar.add, CookieJar.get, InnerJar.add, InnerJar.get, deltaUpsert,
    findDeltaByName, DeltaEntry.cookie]

/-- Claim C2: for an identity present in `original`, removing it makes `get`
report absence, and the delta holds exactly one removal tombstone for that
identity, with empty value, zero max-age, and an expiration in the past. -/
theorem claim_C2_remove_tombstone (j : CookieJar) (c : Cookie) (now : Int)
    (h : ∃ o ∈ j.jar.original, o.identity = (default_path c).identity) :
    (j.remove now c).get c.name = none ∧
    deltaEntriesFor (default_path c).identity (j.remove now c).jar.delta
      = [DeltaEntry.removal (make_removal now (default_path c))] ∧
    (make_removal now (default_path c)).value = Value.plain [] ∧
    (make_removal now (default_path c)).max_age = some 0 ∧
    ∃ t, (make_removal now (default_path c)).expires = some t ∧ t < now := by
  refine ⟨?_, ?_, rfl, rfl, now - 31536000, rfl, by omega⟩
  · simp [CookieJar.remove, CookieJar.get, InnerJar.remove, InnerJar.get, deltaUpsert,
      findDeltaByName, DeltaEntry.cookie]
  · simp [CookieJar.remove, InnerJar.remove, deltaUpsert, deltaEntriesFor,
      DeltaEntry.cookie, deltaEntriesFor_removeIdentity]

/-- Claim C2 witness: removing the original `session` cookie from a loaded jar. -/
theorem claim_C2_remove_tombstone_witness :
    (jFix.remove 1000 cFix).get cFix.name = none ∧
    deltaEntriesFor (default_path cFix).identity (jFix.remove 1000 cFix).jar.delta
      = [DeltaEntry.removal (make_removal 1000 (default_path cFix))] ∧
    (make_removal 1000 (default_path cFix)).value = Value.plain [] ∧
    (make_removal 1000 (default_path cFix)).max_age = some 0 ∧
    ∃ t, (make_removal 1000 (default_path cFix)).expires = some t ∧ t < 1000 :=
  claim_C2_remove_tombstone jFix cFix 1000 (by decide)

/-- Claim C3: under a real key, a value added through `add_private` and read
back through `get_private` decrypts to the original value. -/
theorem claim_C3_private_roundtrip (j : CookieJar) (c : Cookie) (now : Int) (i : Nat)
    (hk : j.key = Key.real i) :
    ((j.add_private now c).get_private c.name).map Cookie.value = some c.value := by
  simp [CookieJar.add_private, CookieJar.get_private, InnerJar.private_add,
    InnerJar.private_get, InnerJar.add, InnerJar.get, deltaUpsert, findDeltaByName,
    DeltaEntry.cookie, hk, encrypt_cookie, decrypt_cookie]

/-- Claim C3 witness: round trip of a concrete value through a real key. -/
theorem claim_C3_private_roundtrip_witness :
    ((jKey.add_private 0 cFix).get_private cFix.name).map Cookie.value = some cFix.value :=
  claim_C3_private_roundtrip jKey cFix 0 5 rfl

/-- Claim C4: under a real key, `get_private` rejects any stored value that is
not a genuine envelope sealed under that key and the cookie's own name: a
tampered (altered) envelope and a ciphertext sealed under a different cookie
name both yield `none`. -/
theorem claim_C4_tamper_rejection (j : CookieJar) (i : Nat) (name : String) (c : Cookie)
    (hk : j.key = Key.real i)
    (hget : j.jar.get name = some c)
    (ht : ∀ p, c.value ≠ Value.sealed i c.name p) :
    j.get_private name = none := by
  have hd : decrypt_cookie (Key.real i) c = none := by
    rcases hv : c.value with bs | ⟨k2, n2, p⟩
    · simp [decrypt_cookie, hv]
    · simp only [decrypt_cookie, hv]
      split
      · rename_i hcond
        exact absurd (by rw [hv, hcond.1, hcond.2]) (ht p)
      · rfl
  simp [CookieJar.get_private, InnerJar.private_get, hget, hk, hd]

/-- Claim C4 witness: a ciphertext sealed under the name `a`, stored in a
cookie named `b`, is rejected by `get_private`. -/
theorem claim_C4_tamper_rejection_witness : jSwap.get_private "b" = none :=
  claim_C4_tamper_rejection jSwap 7 "b" cSwap rfl (by decide)
    (by intro p hp; simp [cSwap] at hp)

/-- Claim C5: the defaulters touch only unset attributes, so explicit caller
values always win; the plain defaulter sets path and SameSite, and the private
defaulter additionally sets HttpOnly and an expiration one week ahead. -/
theorem claim_C5_defaults_once (c : Cookie) (now : Int) :
    (CookieJar.set_defaults c).name = c.name ∧
    (CookieJar.set_defaults c).value = c.value ∧
    (CookieJar.set_defaults c).path = some (c.path.getD "/") ∧
    (CookieJar.set_defaults c).domain = c.domain ∧
    (CookieJar.set_defaults c).same_site = some (c.same_site.getD SameSite.strict) ∧
    (CookieJar.set_defaults c).http_only = c.http_only ∧
    (CookieJar.set_defaults c).secure = c.secure ∧
    (CookieJar.set_defaults c).expires = c.expires ∧
    (CookieJar.set_defaults c).max_age = c.max_age ∧
    (CookieJar.set_private_defaults now c).name = c.name ∧
    (CookieJar.set_private_defaults now c).value = c.value ∧
    (CookieJar.set_private_defaults now c).path = some (c.path.getD "/") ∧
    (CookieJar.set_private_defaults now c).domain = c.domain ∧
    (CookieJar.set_private_defaults now c).same_site
      = some (c.same_site.getD SameSite.strict) ∧
    (CookieJar.set_private_defaults now c).http_only = some (c.http_only.getD true) ∧
    (CookieJar.set_private_defaults now c).secure = c.secure ∧
    (CookieJar.set_private_defaults now c).expires = some (c.expires.getD (now + 604800)) ∧
    (CookieJar.set_private_defaults now c).max_age = c.max_age := by
  obtain ⟨n, v, p, d, ss, ho, sec, ex, ma⟩ := c
  cases p <;> cases ss <;> cases ho <;> cases ex <;>
    simp [CookieJar.set_defaults, CookieJar.set_private_defaults, default_path,
      default_same_site, default_http_only, default_expires]

/-- Claim C6: in every reachable jar state, the delta holds at most one entry
per cookie identity — each mutation replaces any prior entry for its identity. -/
theorem claim_C6_delta_at_most_one (j : CookieJar) (h : Reachable j) : DeltaDistinct j := by
  induction h with
  | new k => exact List.Pairwise.nil
  | add j c _h ih => exact pairwise_deltaUpsert _ _ ih
  | add_private j now c _h ih => exact pairwise_deltaUpsert _ _ ih
  | remove j now c _h ih => exact pairwise_deltaUpsert _ _ ih
  | remove_private j now c _h ih => exact pairwise_deltaUpsert _ _ ih
  | add_original j c _h ih => exact ih
  | add_original_private j c _h ih => exact ih
  | reset_delta j _h _ih => exact List.Pairwise.nil

/-- Claim C6 witness: a freshly built jar with one added cookie. -/
theorem claim_C6_delta_at_most_one_witness :
    DeltaDistinct ((CookieJar.new Key.disabled).add cFix) :=
  claim_C6_delta_at_most_one _ (Reachable.add _ _ (Reachable.new Key.disabled))

/-- Claim C7: the handler-facing mutations never touch `original`; only the
load-time original-adds do, and they insert the cookie as given, without
running the attribute defaulter. -/
theorem claim_C7_original_frame (j : CookieJar) (c : Cookie) (now : Int) :
    (j.add c).jar.original = j.jar.original ∧
    (j.add_private now c).jar.original = j.jar.original ∧
    (j.remove now c).jar.original = j.jar.original ∧
    (j.remove_private now c).jar.original = j.jar.original ∧
    (j.add_original c).jar.original = originalUpsert c j.jar.original ∧
    (j.add_original c).jar.delta = j.jar.delta ∧
    (j.add_original_private c).jar.original = originalUpsert c j.jar.original ∧
    (j.add_original_private c).jar.delta = j.jar.delta :=
  ⟨rfl, rfl, rfl, rfl, rfl, rfl, rfl, rfl⟩

/-- Claim C8: after `reset_delta`, `iter` yields exactly the original cookies,
and `reset_delta` is idempotent. -/
theorem claim_C8_reset_delta (j : CookieJar) :
    j.reset_delta.iter = j.jar.original ∧ j.reset_delta.reset_delta = j.reset_delta := by
  constructor
  · simp [CookieJar.reset_delta, CookieJar.iter, InnerJar.reset_delta, InnerJar.iter,
      deltaUpserts, keepUnmasked_nil]
  · rfl

/-- Claim C9: `remove_private` has exactly the same effect on the jar state as
`remove`: both default an unset path and upsert the same removal tombstone,
with no decryption involved. -/
theorem claim_C9_remove_private_eq_remove (j : CookieJar) (c : Cookie) (now : Int) :
    j.remove_private now c = j.remove now c := rfl

/-- Claim C10: the `Debug` formatter delegates entirely to the inner jar, so
two jars with identical inner state format identically whatever their keys:
the key cannot leak through debug output. -/
theorem claim_C10_debug_key_independent (j1 j2 : CookieJar) (h : j1.jar = j2.jar) :
    j1.fmt = j2.fmt := by
  unfold CookieJar.fmt
  rw [h]

/-- Claim C10 witness: the same inner state under a real key and under the
disabled key formats identically. -/
theorem claim_C10_debug_key_independent_witness :
    (CookieJar.mk innerFix (Key.real 3)).fmt = (CookieJar.mk innerFix Key.disabled).fmt :=
  claim_C10_debug_key_independent (CookieJar.mk innerFix (Key.real 3))
    (CookieJar.mk innerFix Key.disabled) rfl

end Rocket
